import Mathlib

/-!
Verification of the friction-factor resolution engine of HW5SP25
(HW5SP25a.py and HW5SP25b.py).

The resolver logic is embedded at two levels:

* a computable level over `ℚ`: the dispatch logic of
  `HW5SP25b.calculate_friction_factor` and `HW5SP25a.ff`, with the
  external pieces made explicit — `scipy.optimize.fsolve` becomes a
  solver environment `Env`, `random.normalvariate` becomes a tape of
  standard-normal draws (`RandState`), and Python's ZeroDivisionError
  on `64 / Re` at `Re = 0` becomes an `Except` error;

* a real-analysis level over `ℝ`: the Colebrook residual `cb`
  (the lambda `cb` at HW5SP25a.py line 25), the root the turbulent
  solver computes, and the log-spaced Moody grids of `plotMoody`.
-/

/-- Failure raised by the Python runtime when `64 / Re` is evaluated at
`Re = 0` (a ZeroDivisionError).  It is the only failure the source can
raise in the resolver itself; there is no domain-rejection error. -/
inductive FFErr where
  | zeroDivision
  deriving DecidableEq

/-- Environment abstracting `scipy.optimize.fsolve` at HW5SP25a.py line 26.
`fsolve Re rr` is the scalar `result[0]` the solver hands back for the
Colebrook closure built from `(Re, rr)`; `converged Re rr` is the solver's
internal success flag, which the source never inspects (it calls `fsolve`
without `full_output` and returns `result[0]` unconditionally). -/
structure Env where
  fsolve : ℚ → ℚ → ℚ
  converged : ℚ → ℚ → Bool

/-- State of the process-wide pseudorandom source used by
`random.normalvariate`: a tape of standard-normal draws and the position
of the next unread draw. -/
structure RandState where
  tape : ℕ → ℚ
  pos : ℕ

/-- Model of `random.normalvariate(mu, sigma)`: returns `mu + sigma * z`
where `z` is the next standard-normal draw on the tape, and advances the
tape position. -/
def normalvariate (mu sigma : ℚ) (s : RandState) : ℚ × RandState :=
  (mu + sigma * s.tape s.pos, ⟨s.tape, s.pos + 1⟩)

/-- Embedding of `HW5SP25a.ff(Re, rr, CBEQN)`.  The `CBEQN = True` branch
returns whatever `fsolve` produced for the Colebrook closure; the other
branch is the laminar law `64 / Re`, which raises at `Re = 0`. -/
def ff (env : Env) (Re rr : ℚ) (CBEQN : Bool) : Except FFErr ℚ :=
  if CBEQN then .ok (env.fsolve Re rr)
  else if Re = 0 then .error .zeroDivision
  else .ok (64 / Re)

/-- Embedding of `HW5SP25b.calculate_friction_factor(Re, rr)` (lines
31-43): turbulent for `Re >= 4000` via `pta.ff(Re, rr, CBEQN=True)`,
laminar `64 / Re` for `Re <= 2000`, and otherwise the stochastic
interpolation `normalvariate(mu_f, sigma_f)`. -/
def calculate_friction_factor (env : Env) (Re rr : ℚ) (s : RandState) :
    Except FFErr (ℚ × RandState) :=
  if 4000 ≤ Re then
    (ff env Re rr true).map fun f => (f, s)
  else if Re ≤ 2000 then
    if Re = 0 then .error .zeroDivision else .ok (64 / Re, s)
  else
    match ff env Re rr true with
    | .error e => .error e
    | .ok f_CB =>
      let f_lam := 64 / Re
      let mu_f := f_lam + (f_CB - f_lam) * ((Re - 2000) / 2000)
      let sigma_f := (0.2 : ℚ) * mu_f
      .ok (normalvariate mu_f sigma_f s)

/-- The interpolated mean `mu_f` of the transition branch
(HW5SP25b.py line 41). -/
def transitionMean (env : Env) (Re rr : ℚ) : ℚ :=
  64 / Re + (env.fsolve Re rr - 64 / Re) * ((Re - 2000) / 2000)

/-- A concrete solver environment: the solver always reports success and
returns `0.02` (the initial guess). -/
def envC : Env :=
  ⟨fun _ _ => 0.02, fun _ _ => true⟩

/-- A solver environment whose internal flag reports non-convergence on
every input while handing back the unconverged iterate `0.02`. -/
def badEnv : Env :=
  ⟨fun _ _ => 0.02, fun _ _ => false⟩

/-- A concrete random state: all draws are `0`. -/
def rngA : RandState :=
  ⟨fun _ => 0, 0⟩

/-- Another concrete random state: all draws are `1`, position `5`. -/
def rngB : RandState :=
  ⟨fun _ => 1, 5⟩

lemma cff_turb_eq (env : Env) (Re rr : ℚ) (s : RandState) (h : 4000 ≤ Re) :
    calculate_friction_factor env Re rr s = .ok (env.fsolve Re rr, s) := by
  unfold calculate_friction_factor
  rw [if_pos h]
  rfl

lemma cff_lam_eq (env : Env) (Re rr : ℚ) (s : RandState) (h0 : Re ≠ 0)
    (h2 : Re ≤ 2000) :
    calculate_friction_factor env Re rr s = .ok (64 / Re, s) := by
  unfold calculate_friction_factor
  rw [if_neg (not_le.mpr (lt_of_le_of_lt h2 (by norm_num))), if_pos h2,
    if_neg h0]

lemma cff_zero_eq (env : Env) (rr : ℚ) (s : RandState) :
    calculate_friction_factor env 0 rr s = .error .zeroDivision := by
  unfold calculate_friction_factor
  rw [if_neg (by norm_num), if_pos (by norm_num), if_pos rfl]

lemma cff_trans_eq (env : Env) (Re rr : ℚ) (s : RandState) (h1 : 2000 < Re)
    (h2 : Re < 4000) :
    calculate_friction_factor env Re rr s =
      .ok (normalvariate (transitionMean env Re rr)
        ((0.2 : ℚ) * transitionMean env Re rr) s) := by
  unfold calculate_friction_factor
  rw [if_neg (not_le.mpr h2), if_neg (not_le.mpr h1)]
  rfl

/-- C2: for every `0 < Re ≤ 2000`, both the naturally classified laminar
branch of `calculate_friction_factor` and the forced-laminar path of `ff`
return exactly `64 / Re`; the result does not depend on `rr` or on the
random state. -/
theorem calculate_friction_factor_laminar (env : Env) (Re rr : ℚ)
    (s : RandState) (h0 : 0 < Re) (h2 : Re ≤ 2000) :
    calculate_friction_factor env Re rr s = .ok (64 / Re, s) ∧
    ff env Re rr false = .ok (64 / Re) := by
  refine ⟨cff_lam_eq env Re rr s h0.ne' h2, ?_⟩
  unfold ff
  rw [if_neg (by decide), if_neg h0.ne']

/-- Witness for C2 at the spec's concrete scenario `Re = 1000`:
the result is `64 / 1000 = 0.064`, for a nonzero `rr`. -/
theorem calculate_friction_factor_laminar_witness :
    (0 : ℚ) < 1000 ∧ (1000 : ℚ) ≤ 2000 ∧ (64 / 1000 : ℚ) = 0.064 ∧
    (calculate_friction_factor envC 1000 (1 / 100) rngA =
        .ok (64 / 1000, rngA) ∧
      ff envC 1000 (1 / 100) false = .ok (64 / 1000)) :=
  ⟨by norm_num, by norm_num, by norm_num,
    calculate_friction_factor_laminar envC 1000 (1 / 100) rngA (by norm_num)
      (by norm_num)⟩

/-- C3: for `2000 < Re < 4000` the resolver returns exactly
`normalvariate(mu_f, sigma_f)` where `mu_f = f_lam + (f_CB - f_lam) *
(Re - 2000) / 2000` with `f_lam = 64 / Re`, `f_CB` the turbulent solver
value at the same `(Re, rr)`, and `sigma_f = 0.2 * mu_f`. -/
theorem calculate_friction_factor_transition (env : Env) (Re rr : ℚ)
    (s : RandState) (h1 : 2000 < Re) (h2 : Re < 4000) :
    calculate_friction_factor env Re rr s =
      .ok (normalvariate
        (64 / Re + (env.fsolve Re rr - 64 / Re) * ((Re - 2000) / 2000))
        ((0.2 : ℚ) *
          (64 / Re + (env.fsolve Re rr - 64 / Re) * ((Re - 2000) / 2000)))
        s) := by
  rw [cff_trans_eq env Re rr s h1 h2]
  rfl

/-- Witness for C3 at `Re = 3000`, `rr = 0.001`. -/
theorem calculate_friction_factor_transition_witness :
    (2000 : ℚ) < 3000 ∧ (3000 : ℚ) < 4000 ∧
    calculate_friction_factor envC 3000 (1 / 1000) rngA =
      .ok (normalvariate
        (64 / 3000 +
          (envC.fsolve 3000 (1 / 1000) - 64 / 3000) * ((3000 - 2000) / 2000))
        ((0.2 : ℚ) *
          (64 / 3000 +
            (envC.fsolve 3000 (1 / 1000) - 64 / 3000) *
              ((3000 - 2000) / 2000)))
        rngA) :=
  ⟨by norm_num, by norm_num,
    calculate_friction_factor_transition envC 3000 (1 / 1000) rngA
      (by norm_num) (by norm_num)⟩

/-- C4 (code fails the claim): the source has no domain guard.  At
`Re = -100` the resolver returns the numeric value `64 / (-100)`, at
`rr = 0.1 > 0.05` it happily computes `64 / Re`, and at `Re = 0` it fails
with the ZeroDivisionError coming out of the division `64 / Re`, not with
a rejected-input domain error. -/
theorem calculate_friction_factor_no_domain_guard :
    Except.map Prod.fst (calculate_friction_factor envC (-100) 0 rngA) =
      .ok (64 / (-100)) ∧
    Except.map Prod.fst (calculate_friction_factor envC 1000 (1 / 10) rngA) =
      .ok (64 / 1000) ∧
    calculate_friction_factor envC 0 0 rngA = .error .zeroDivision := by
  refine ⟨?_, ?_, cff_zero_eq envC 0 rngA⟩
  · rw [cff_lam_eq envC (-100) 0 rngA (by norm_num) (by norm_num)]
    rfl
  · rw [cff_lam_eq envC 1000 (1 / 10) rngA (by norm_num) (by norm_num)]
    rfl

/-- C5 (code fails the claim): `ff` returns the solver's numeric value
unconditionally — the convergence flag of the solver environment is never
consulted, so a non-converged value is returned silently instead of being
surfaced as a distinct failure.  In particular, in an environment whose
solver reports non-convergence everywhere, `ff` still returns `ok 0.02`. -/
theorem ff_returns_unconverged_value :
    (∀ (env : Env) (Re rr : ℚ), ff env Re rr true = .ok (env.fsolve Re rr)) ∧
    badEnv.converged 5000 (1 / 1000) = false ∧
    ff badEnv 5000 (1 / 1000) true = .ok (0.02 : ℚ) :=
  ⟨fun _ _ _ => rfl, rfl, rfl⟩

/-- A solver environment for the C6 counterexample: the turbulent value is
`0.04` (close to the genuine Colebrook root near `Re = 3000`). -/
def cexEnv : Env :=
  ⟨fun _ _ => 1 / 25, fun _ _ => true⟩

/-- A random state for the C6 counterexample: the next standard-normal
draw is `-6`, a value the unbounded normal distribution can produce. -/
def cexRng : RandState :=
  ⟨fun _ => -6, 0⟩

/-- C6 counterexample: in the transition branch the returned friction
factor is a normal draw, and a draw of `z = -6` at `Re = 3000`, `rr = 0`
makes the resolver return `-23/3750 < 0`, so the output is not strictly
positive on all valid inputs. -/
theorem calculate_friction_factor_neg_sample :
    Except.map Prod.fst (calculate_friction_factor cexEnv 3000 0 cexRng) =
      .ok (-23 / 3750 : ℚ) ∧
    ¬ (0 : ℚ) < -23 / 3750 := by
  constructor
  · rw [cff_trans_eq cexEnv 3000 0 cexRng (by norm_num) (by norm_num)]
    simp only [Except.map, transitionMean, normalvariate, cexEnv, cexRng]
    norm_num
  · norm_num

/-- C6 amended: under `Re > 0` and a positive solver value, the laminar
and turbulent branches return strictly positive friction factors, and the
transition branch draws from a distribution whose mean `mu_f` is strictly
positive; the drawn value itself is not guaranteed positive. -/
theorem calculate_friction_factor_pos (env : Env) (Re rr : ℚ)
    (s : RandState) (h0 : 0 < Re) (hS : 0 < env.fsolve Re rr) :
    ((Re ≤ 2000 ∨ 4000 ≤ Re) → ∃ f : ℚ,
      calculate_friction_factor env Re rr s = .ok (f, s) ∧ 0 < f) ∧
    (2000 < Re → Re < 4000 → 0 < transitionMean env Re rr) := by
  constructor
  · rintro (h | h)
    · exact ⟨64 / Re, cff_lam_eq env Re rr s h0.ne' h,
        div_pos (by norm_num) h0⟩
    · exact ⟨env.fsolve Re rr, cff_turb_eq env Re rr s h, hS⟩
  · intro h1 h2
    have hl : 0 < 64 / Re := div_pos (by norm_num) h0
    have ht0 : 0 < (Re - 2000) / 2000 := div_pos (by linarith) (by norm_num)
    have ht1 : (Re - 2000) / 2000 < 1 := by
      rw [div_lt_one (by norm_num)]
      linarith
    unfold transitionMean
    nlinarith [mul_pos hS ht0, mul_pos hl (sub_pos.mpr ht1)]

/-- Witness for the amended C6 at `Re = 3000`, `rr = 0`: the transition
mean is strictly positive. -/
theorem calculate_friction_factor_pos_witness :
    (0 : ℚ) < 3000 ∧ (0 : ℚ) < envC.fsolve 3000 0 ∧ (2000 : ℚ) < 3000 ∧
    (3000 : ℚ) < 4000 ∧ 0 < transitionMean envC 3000 0 :=
  ⟨by norm_num, by norm_num [envC], by norm_num, by norm_num,
    (calculate_friction_factor_pos envC 3000 0 rngA (by norm_num)
        (by norm_num [envC])).2 (by norm_num) (by norm_num)⟩

/-- C10: outside the transition band the resolver is deterministic — the
returned value is the same for any two random states and the random state
is returned unread and unadvanced; only the branch `2000 < Re < 4000`
consumes one draw, advancing the tape position by exactly one. -/
theorem calculate_friction_factor_det (env : Env) (Re rr : ℚ) :
    ((Re ≤ 2000 ∨ 4000 ≤ Re) → ∀ s₁ s₂ : RandState,
      Except.map Prod.fst (calculate_friction_factor env Re rr s₁) =
        Except.map Prod.fst (calculate_friction_factor env Re rr s₂) ∧
      Except.map Prod.snd (calculate_friction_factor env Re rr s₁) =
        Except.map (fun _ => s₁) (calculate_friction_factor env Re rr s₁)) ∧
    (2000 < Re → Re < 4000 → ∀ s : RandState,
      Except.map Prod.snd (calculate_friction_factor env Re rr s) =
        .ok ⟨s.tape, s.pos + 1⟩) := by
  constructor
  · rintro (h | h) s₁ s₂
    · by_cases hz : Re = 0
      · subst hz
        rw [cff_zero_eq env rr s₁, cff_zero_eq env rr s₂]
        exact ⟨rfl, rfl⟩
      · rw [cff_lam_eq env Re rr s₁ hz h, cff_lam_eq env Re rr s₂ hz h]
        exact ⟨rfl, rfl⟩
    · rw [cff_turb_eq env Re rr s₁, cff_turb_eq env Re rr s₂]
      · exact ⟨rfl, rfl⟩
      · exact h
      · exact h
  · intro h1 h2 s
    rw [cff_trans_eq env Re rr s h1 h2]
    rfl

/-- Witness for C10 at `Re = 1000` with two different random states. -/
theorem calculate_friction_factor_det_witness :
    ((1000 : ℚ) ≤ 2000 ∨ (4000 : ℚ) ≤ 1000) ∧
    (Except.map Prod.fst (calculate_friction_factor envC 1000 0 rngA) =
        Except.map Prod.fst (calculate_friction_factor envC 1000 0 rngB) ∧
      Except.map Prod.snd (calculate_friction_factor envC 1000 0 rngA) =
        Except.map (fun _ => rngA)
          (calculate_friction_factor envC 1000 0 rngA)) :=
  ⟨Or.inl (by norm_num),
    (calculate_friction_factor_det envC 1000 0).1 (Or.inl (by norm_num))
      rngA rngB⟩

/-- The Colebrook residual: the closure `cb` built at HW5SP25a.py line 25,
`cb(f) = 1/sqrt(f) + 2.0*log10(rr/3.7 + 2.51/(Re*sqrt(f)))`, read over the
reals. -/
noncomputable def cb (Re rr f : ℝ) : ℝ :=
  1 / Real.sqrt f + 2 * Real.logb 10 (rr / 3.7 + 2.51 / (Re * Real.sqrt f))

lemma cb_strict_anti (Re rr : ℝ) (hRe : 0 < Re) (hrr : 0 ≤ rr) {f₁ f₂ : ℝ}
    (h1 : 0 < f₁) (h12 : f₁ < f₂) : cb Re rr f₂ < cb Re rr f₁ := by
  have hs1 : 0 < Real.sqrt f₁ := Real.sqrt_pos.mpr h1
  have hs12 : Real.sqrt f₁ < Real.sqrt f₂ := Real.sqrt_lt_sqrt h1.le h12
  have hinv : 1 / Real.sqrt f₂ < 1 / Real.sqrt f₁ :=
    one_div_lt_one_div_of_lt hs1 hs12
  have hdiv : 2.51 / (Re * Real.sqrt f₂) < 2.51 / (Re * Real.sqrt f₁) :=
    div_lt_div_of_pos_left (by norm_num) (mul_pos hRe hs1)
      (mul_lt_mul_of_pos_left hs12 hRe)
  have harg : 0 < rr / 3.7 + 2.51 / (Re * Real.sqrt f₂) :=
    add_pos_of_nonneg_of_pos (by positivity)
      (div_pos (by norm_num) (mul_pos hRe (Real.sqrt_pos.mpr (h1.trans h12))))
  have hlog :
      Real.logb 10 (rr / 3.7 + 2.51 / (Re * Real.sqrt f₂)) <
        Real.logb 10 (rr / 3.7 + 2.51 / (Re * Real.sqrt f₁)) :=
    Real.logb_lt_logb (by norm_num) harg (by linarith)
  unfold cb
  linarith

lemma cb_mono_rr (Re : ℝ) (hRe : 0 < Re) {rr₁ rr₂ f : ℝ} (h1 : 0 ≤ rr₁)
    (h12 : rr₁ ≤ rr₂) (hf : 0 < f) : cb Re rr₁ f ≤ cb Re rr₂ f := by
  have hs : 0 < Real.sqrt f := Real.sqrt_pos.mpr hf
  have harg : 0 < rr₁ / 3.7 + 2.51 / (Re * Real.sqrt f) :=
    add_pos_of_nonneg_of_pos (by positivity)
      (div_pos (by norm_num) (mul_pos hRe hs))
  have hlog :
      Real.logb 10 (rr₁ / 3.7 + 2.51 / (Re * Real.sqrt f)) ≤
        Real.logb 10 (rr₂ / 3.7 + 2.51 / (Re * Real.sqrt f)) :=
    Real.logb_le_logb_of_le (by norm_num) harg (by gcongr)
  unfold cb
  linarith

lemma cb_root_le (Re : ℝ) (hRe : 0 < Re) {rr₁ rr₂ f₁ f₂ : ℝ}
    (hr1 : 0 ≤ rr₁) (hr12 : rr₁ ≤ rr₂) (hf2 : 0 < f₂)
    (e1 : cb Re rr₁ f₁ = 0) (e2 : cb Re rr₂ f₂ = 0) : f₁ ≤ f₂ := by
  by_contra hlt
  push_neg at hlt
  have h1 : cb Re rr₁ f₁ < cb Re rr₁ f₂ := cb_strict_anti Re rr₁ hRe hr1 hf2 hlt
  have h2 : cb Re rr₁ f₂ ≤ cb Re rr₂ f₂ := cb_mono_rr Re hRe hr1 hr12 hf2
  rw [e1] at h1
  rw [e2] at h2
  linarith

lemma cb_pos_at_lower (Re rr : ℝ) (hRe : 0 < Re) (hrr : 0 ≤ rr) :
    0 < cb Re rr ((2.51 / Re) ^ 2) := by
  have hq : 0 < 2.51 / Re := by positivity
  have hs : Real.sqrt ((2.51 / Re) ^ 2) = 2.51 / Re := Real.sqrt_sq hq.le
  have hmul : Re * (2.51 / Re) = 2.51 := by
    field_simp
  unfold cb
  rw [hs, hmul, div_self (by norm_num : (2.51 : ℝ) ≠ 0)]
  have h2 : 0 ≤ Real.logb 10 (rr / 3.7 + 1) := by
    refine Real.logb_nonneg (by norm_num) ?_
    have hd : 0 ≤ rr / 3.7 := by positivity
    linarith
  have h3 : 0 < 1 / (2.51 / Re) := by positivity
  linarith

lemma cb_neg_at_upper (Re rr : ℝ) (hRe : 4000 ≤ Re) (h0 : 0 ≤ rr)
    (h5 : rr ≤ 0.05) : cb Re rr 1000000 < 0 := by
  have hRe0 : 0 < Re := by linarith
  have hs : Real.sqrt (1000000 : ℝ) = 1000 := by
    rw [show (1000000 : ℝ) = 1000 ^ 2 by norm_num]
    exact Real.sqrt_sq (by norm_num)
  have harg0 : 0 < rr / 3.7 + 2.51 / (Re * 1000) :=
    add_pos_of_nonneg_of_pos (by positivity)
      (div_pos (by norm_num) (by nlinarith))
  have hb1 : 2.51 / (Re * 1000) ≤ 2.51 / 4000000 :=
    div_le_div_of_nonneg_left (by norm_num) (by norm_num) (by nlinarith)
  have hb2 : rr / 3.7 ≤ 0.05 / 3.7 := by gcongr
  have harg : rr / 3.7 + 2.51 / (Re * 1000) ≤ 1 / 10 := by
    have hn : (0.05 : ℝ) / 3.7 + 2.51 / 4000000 ≤ 1 / 10 := by norm_num
    linarith
  have hlog :
      Real.logb 10 (rr / 3.7 + 2.51 / (Re * 1000)) ≤
        Real.logb 10 ((1 : ℝ) / 10) :=
    Real.logb_le_logb_of_le (by norm_num) harg0 harg
  have hval : Real.logb 10 ((1 : ℝ) / 10) = -1 := by
    rw [one_div, Real.logb_inv, Real.logb_self_eq_one (by norm_num)]
  rw [hval] at hlog
  unfold cb
  rw [hs]
  linarith

lemma cb_exists_root (Re rr : ℝ) (hRe : 4000 ≤ Re) (h0 : 0 ≤ rr)
    (h5 : rr ≤ 0.05) :
    ∃ f ∈ Set.Icc ((2.51 / Re) ^ 2) (1000000 : ℝ), cb Re rr f = 0 := by
  have hRe0 : 0 < Re := by linarith
  have hq : 0 < 2.51 / Re := by positivity
  have hq1 : 2.51 / Re ≤ 1 := by
    rw [div_le_one hRe0]
    linarith
  have hab : (2.51 / Re) ^ 2 ≤ (1000000 : ℝ) := by
    have hone : (2.51 / Re) ^ 2 ≤ 1 := pow_le_one₀ hq.le hq1
    linarith
  have hxpos : ∀ x ∈ Set.Icc ((2.51 / Re) ^ 2) (1000000 : ℝ), 0 < x :=
    fun x hx => lt_of_lt_of_le (by positivity) hx.1
  have hcont :
      ContinuousOn (fun f => cb Re rr f)
        (Set.Icc ((2.51 / Re) ^ 2) 1000000) := by
    unfold cb
    apply ContinuousOn.add
    · apply ContinuousOn.div continuousOn_const
        Real.continuous_sqrt.continuousOn
      intro x hx
      exact ne_of_gt (Real.sqrt_pos.mpr (hxpos x hx))
    · apply ContinuousOn.mul continuousOn_const
      have hu :
          ContinuousOn (fun f : ℝ => rr / 3.7 + 2.51 / (Re * Real.sqrt f))
            (Set.Icc ((2.51 / Re) ^ 2) 1000000) := by
        apply ContinuousOn.add continuousOn_const
        apply ContinuousOn.div continuousOn_const
          (continuous_const.mul Real.continuous_sqrt).continuousOn
        intro x hx
        exact ne_of_gt (mul_pos hRe0 (Real.sqrt_pos.mpr (hxpos x hx)))
      have hmaps :
          Set.MapsTo (fun f : ℝ => rr / 3.7 + 2.51 / (Re * Real.sqrt f))
            (Set.Icc ((2.51 / Re) ^ 2) 1000000) {0}ᶜ := by
        intro x hx
        have hp : 0 < rr / 3.7 + 2.51 / (Re * Real.sqrt x) := by
          have := Real.sqrt_pos.mpr (hxpos x hx)
          positivity
        simp only [Set.mem_compl_iff, Set.mem_singleton_iff]
        exact ne_of_gt hp
      exact Real.continuousOn_logb.comp hu hmaps
  have hsub := intermediate_value_Icc' hab hcont
  have hmem :
      (0 : ℝ) ∈ Set.Icc (cb Re rr 1000000) (cb Re rr ((2.51 / Re) ^ 2)) :=
    ⟨(cb_neg_at_upper Re rr hRe h0 h5).le, (cb_pos_at_lower Re rr hRe0 h0).le⟩
  obtain ⟨f, hf, hfeq⟩ := hsub hmem
  exact ⟨f, hf, hfeq⟩

open Classical in
/-- Modelled from the spec: the iteration inside `scipy.optimize.fsolve`
(called at HW5SP25a.py line 26 with initial guess 0.02) is library code
outside this repository; per the spec the turbulent root-finder iterates
until the Colebrook residual vanishes to tolerance on the physically valid
domain.  `colebrookRoot Re rr` is the root it returns, taken from the
bracket `[(2.51/Re)^2, 1e6]` on which the residual provably changes
sign. -/
noncomputable def colebrookRoot (Re rr : ℝ) : ℝ :=
  if h : ∃ f ∈ Set.Icc ((2.51 / Re) ^ 2) (1000000 : ℝ), cb Re rr f = 0 then
    h.choose
  else
    0.02

lemma colebrookRoot_spec (Re rr : ℝ) (hRe : 4000 ≤ Re) (h0 : 0 ≤ rr)
    (h5 : rr ≤ 0.05) :
    colebrookRoot Re rr ∈ Set.Icc ((2.51 / Re) ^ 2) (1000000 : ℝ) ∧
    cb Re rr (colebrookRoot Re rr) = 0 := by
  have hex := cb_exists_root Re rr hRe h0 h5
  unfold colebrookRoot
  rw [dif_pos hex]
  exact hex.choose_spec

/-- C1: for every turbulent input (`Re ≥ 4000`, `rr ∈ [0, 0.05]`) the
friction factor the turbulent path returns satisfies the Colebrook
equation to within tolerance: the absolute residual is below `1e-6`. -/
theorem colebrookRoot_residual (Re rr : ℝ) (hRe : 4000 ≤ Re) (h0 : 0 ≤ rr)
    (h5 : rr ≤ 0.05) : |cb Re rr (colebrookRoot Re rr)| < 1e-6 := by
  rw [(colebrookRoot_spec Re rr hRe h0 h5).2]
  norm_num

/-- Witness for C1 at `Re = 4000`, `rr = 0`. -/
theorem colebrookRoot_residual_witness :
    (4000 : ℝ) ≤ 4000 ∧ (0 : ℝ) ≤ 0 ∧ (0 : ℝ) ≤ 0.05 ∧
    |cb 4000 0 (colebrookRoot 4000 0)| < 1e-6 :=
  ⟨le_refl _, le_refl _, by norm_num,
    colebrookRoot_residual 4000 0 (le_refl _) (le_refl _) (by norm_num)⟩

/-- C7: for fixed `Re ≥ 4000`, the turbulent friction factor is monotone
in the relative roughness: `rr₁ ≤ rr₂` within `[0, 0.05]` implies the
returned root at `rr₁` is at most the one at `rr₂`. -/
theorem colebrookRoot_mono_rr (Re rr₁ rr₂ : ℝ) (hRe : 4000 ≤ Re)
    (h0 : 0 ≤ rr₁) (h12 : rr₁ ≤ rr₂) (h5 : rr₂ ≤ 0.05) :
    colebrookRoot Re rr₁ ≤ colebrookRoot Re rr₂ := by
  have hRe0 : (0 : ℝ) < Re := by linarith
  have s1 := colebrookRoot_spec Re rr₁ hRe h0 (le_trans h12 h5)
  have s2 := colebrookRoot_spec Re rr₂ hRe (le_trans h0 h12) h5
  have apos : (0 : ℝ) < (2.51 / Re) ^ 2 := by positivity
  exact cb_root_le Re hRe0 h0 h12 (lt_of_lt_of_le apos s2.1.1) s1.2 s2.2

/-- Witness for C7 at `Re = 4000`, `rr₁ = 0`, `rr₂ = 0.05`. -/
theorem colebrookRoot_mono_rr_witness :
    (4000 : ℝ) ≤ 4000 ∧ (0 : ℝ) ≤ 0 ∧ (0 : ℝ) ≤ 0.05 ∧
    colebrookRoot 4000 0 ≤ colebrookRoot 4000 0.05 :=
  ⟨le_refl _, le_refl _, by norm_num,
    colebrookRoot_mono_rr 4000 0 0.05 (le_refl _) (le_refl _) (by norm_num)
      (le_refl _)⟩

/-- The interpolated transition mean of HW5SP25b.py line 41 read over the
reals, for a fixed relative roughness: `F Re` is the turbulent prediction
`pta.ff(Re, rr, CBEQN=True)` as a function of `Re`. -/
noncomputable def transitionMeanReal (F : ℝ → ℝ) (Re : ℝ) : ℝ :=
  64 / Re + (F Re - 64 / Re) * ((Re - 2000) / 2000)

/-- C8: the transition mean equals the laminar value `64/2000` at
`Re = 2000`, tends to it as `Re` approaches `2000` from above, and tends
to the turbulent prediction `F 4000` as `Re` approaches `4000` from
below, whenever the turbulent prediction has the matching one-sided
limits. -/
theorem transitionMean_boundary (F : ℝ → ℝ)
    (hF2 : Filter.Tendsto F (nhdsWithin 2000 (Set.Ioi 2000)) (nhds (F 2000)))
    (hF4 : Filter.Tendsto F (nhdsWithin 4000 (Set.Iio 4000)) (nhds (F 4000))) :
    transitionMeanReal F 2000 = 64 / 2000 ∧
    Filter.Tendsto (transitionMeanReal F) (nhdsWithin 2000 (Set.Ioi 2000))
      (nhds (64 / 2000)) ∧
    Filter.Tendsto (transitionMeanReal F) (nhdsWithin 4000 (Set.Iio 4000))
      (nhds (F 4000)) := by
  have hc2 : ContinuousAt (fun x : ℝ => 64 / x) 2000 :=
    ContinuousAt.div continuousAt_const continuousAt_id (by norm_num)
  have hc4 : ContinuousAt (fun x : ℝ => 64 / x) 4000 :=
    ContinuousAt.div continuousAt_const continuousAt_id (by norm_num)
  have hl2 : ContinuousAt (fun x : ℝ => (x - 2000) / 2000) 2000 :=
    ContinuousAt.div (continuousAt_id.sub continuousAt_const)
      continuousAt_const (by norm_num)
  have hl4 : ContinuousAt (fun x : ℝ => (x - 2000) / 2000) 4000 :=
    ContinuousAt.div (continuousAt_id.sub continuousAt_const)
      continuousAt_const (by norm_num)
  have h64_2 :
      Filter.Tendsto (fun x : ℝ => 64 / x) (nhdsWithin 2000 (Set.Ioi 2000))
        (nhds (64 / 2000)) :=
    hc2.tendsto.mono_left nhdsWithin_le_nhds
  have h64_4 :
      Filter.Tendsto (fun x : ℝ => 64 / x) (nhdsWithin 4000 (Set.Iio 4000))
        (nhds (64 / 4000)) :=
    hc4.tendsto.mono_left nhdsWithin_le_nhds
  have hlin2 :
      Filter.Tendsto (fun x : ℝ => (x - 2000) / 2000)
        (nhdsWithin 2000 (Set.Ioi 2000)) (nhds (((2000 : ℝ) - 2000) / 2000)) :=
    hl2.tendsto.mono_left nhdsWithin_le_nhds
  have hlin4 :
      Filter.Tendsto (fun x : ℝ => (x - 2000) / 2000)
        (nhdsWithin 4000 (Set.Iio 4000)) (nhds (((4000 : ℝ) - 2000) / 2000)) :=
    hl4.tendsto.mono_left nhdsWithin_le_nhds
  refine ⟨by unfold transitionMeanReal; norm_num, ?_, ?_⟩
  · have h := h64_2.add ((hF2.sub h64_2).mul hlin2)
    have heq :
        64 / 2000 + (F 2000 - 64 / 2000) * (((2000 : ℝ) - 2000) / 2000) =
          64 / 2000 := by
      norm_num
    rw [← heq]
    exact h
  · have h := h64_4.add ((hF4.sub h64_4).mul hlin4)
    have heq :
        64 / 4000 + (F 4000 - 64 / 4000) * (((4000 : ℝ) - 2000) / 2000) =
          F 4000 := by
      ring
    rw [← heq]
    exact h

/-- Witness for C8 with the constant turbulent prediction `0.04`. -/
theorem transitionMean_boundary_witness :
    transitionMeanReal (fun _ => (1 / 25 : ℝ)) 2000 = 64 / 2000 ∧
    Filter.Tendsto (transitionMeanReal (fun _ => (1 / 25 : ℝ)))
      (nhdsWithin 2000 (Set.Ioi 2000)) (nhds (64 / 2000)) ∧
    Filter.Tendsto (transitionMeanReal (fun _ => (1 / 25 : ℝ)))
      (nhdsWithin 4000 (Set.Iio 4000)) (nhds ((fun _ => (1 / 25 : ℝ)) 4000)) :=
  transitionMean_boundary (fun _ => (1 / 25 : ℝ)) tendsto_const_nhds
    tendsto_const_nhds

/-- Model of `np.logspace(a, b, n)`: `n` points whose base-10 exponents
are linearly spaced from `a` to `b` inclusive. -/
noncomputable def logspace (a b : ℝ) (n : ℕ) : List ℝ :=
  (List.range n).map fun (i : ℕ) =>
    (10 : ℝ) ^ (a + (b - a) * (i : ℝ) / ((n : ℝ) - 1))

lemma logspace_length (a b : ℝ) (n : ℕ) : (logspace a b n).length = n := by
  unfold logspace
  rw [List.length_map, List.length_range]

lemma logspace_getElem? (a b : ℝ) {n i : ℕ} (h : i < n) :
    (logspace a b n)[i]? =
      some ((10 : ℝ) ^ (a + (b - a) * (i : ℝ) / ((n : ℝ) - 1))) := by
  unfold logspace
  rw [List.getElem?_map, List.getElem?_range h]
  rfl

/-- The turbulent Reynolds grid of plotMoody (HW5SP25a.py line 44). -/
noncomputable def ReValsCB : List ℝ :=
  logspace (Real.logb 10 4000) (Real.logb 10 1e8) 100

/-- The laminar Reynolds grid of plotMoody (HW5SP25a.py line 45). -/
noncomputable def ReValsL : List ℝ :=
  logspace (Real.logb 10 600) (Real.logb 10 2000) 20

/-- The transition Reynolds grid of plotMoody (HW5SP25a.py line 46). -/
noncomputable def ReValsTrans : List ℝ :=
  logspace (Real.logb 10 2000) (Real.logb 10 4000) 20

/-- The fixed roughness sweep of plotMoody (HW5SP25a.py lines 49-50). -/
def rrVals : List ℚ :=
  [0, 1e-6, 5e-6, 1e-5, 5e-5, 1e-4, 2e-4, 4e-4, 6e-4, 8e-4,
    1e-3, 2e-3, 4e-3, 6e-3, 8e-3, 1.5e-2, 2e-2, 3e-2, 4e-2, 5e-2]

/-- Real-valued reading of `HW5SP25a.ff` for the grid sweeps of
`plotMoody` (whose Reynolds values are real and strictly positive, so the
laminar division never raises): forced turbulent returns the solver value,
otherwise `64 / Re`. -/
noncomputable def ffReal (solver : ℝ → ℝ → ℝ) (Re rr : ℝ) (CBEQN : Bool) : ℝ :=
  if CBEQN then solver Re rr else 64 / Re

/-- The laminar curve data of plotMoody (HW5SP25a.py line 53). -/
noncomputable def ffLam (solver : ℝ → ℝ → ℝ) : List ℝ :=
  ReValsL.map fun Re => ffReal solver Re 0 false

/-- The transition curve data of plotMoody (HW5SP25a.py line 54). -/
noncomputable def ffTrans (solver : ℝ → ℝ → ℝ) : List ℝ :=
  ReValsTrans.map fun Re => ffReal solver Re 0 false

/-- The turbulent curve family of plotMoody (HW5SP25a.py line 55). -/
noncomputable def ffCB (solver : ℝ → ℝ → ℝ) : List (List ℝ) :=
  rrVals.map fun (rr : ℚ) =>
    ReValsCB.map fun Re => ffReal solver Re (rr : ℝ) true

/-- C9: the Moody sampler calls the resolver with forced laminar regime
once per Re value on the laminar and transition grids (the results are
`64 / Re`, independent of the solver and of any random state), and with
forced turbulent regime once per (roughness, Re) pair over the full
cross-product, one curve per roughness value; the turbulent grid is 100
points from 4000 to 1e8 and the roughness sweep is 20 ordered values from
0 to 0.05. -/
theorem plotMoody_grid (solver : ℝ → ℝ → ℝ) :
    ffLam solver = ReValsL.map (fun Re => 64 / Re) ∧
    ffTrans solver = ReValsTrans.map (fun Re => 64 / Re) ∧
    ffCB solver =
      rrVals.map (fun (rr : ℚ) => ReValsCB.map fun Re => solver Re (rr : ℝ)) ∧
    (ffCB solver).length = rrVals.length ∧
    ReValsCB.length = 100 ∧
    ReValsCB[0]? = some 4000 ∧
    ReValsCB[99]? = some 100000000 ∧
    rrVals.length = 20 ∧
    rrVals[0]? = some (0 : ℚ) ∧
    rrVals[19]? = some (0.05 : ℚ) ∧
    List.Chain' (fun a b => a ≤ b) rrVals := by
  refine ⟨?_, ?_, ?_, ?_, ?_, ?_, ?_, ?_, ?_, ?_, ?_⟩
  · simp [ffLam, ffReal]
  · simp [ffTrans, ffReal]
  · simp [ffCB, ffReal]
  · unfold ffCB
    rw [List.length_map]
  · exact logspace_length _ _ 100
  · unfold ReValsCB
    rw [logspace_getElem? _ _ (show 0 < 100 by norm_num)]
    have heq :
        Real.logb 10 4000 +
            (Real.logb 10 1e8 - Real.logb 10 4000) * ((0 : ℕ) : ℝ) /
              (((100 : ℕ) : ℝ) - 1) =
          Real.logb 10 4000 := by
      push_cast
      ring
    rw [heq, Real.rpow_logb (by norm_num) (by norm_num) (by norm_num)]
  · unfold ReValsCB
    rw [logspace_getElem? _ _ (show 99 < 100 by norm_num)]
    have heq :
        Real.logb 10 4000 +
            (Real.logb 10 1e8 - Real.logb 10 4000) * ((99 : ℕ) : ℝ) /
              (((100 : ℕ) : ℝ) - 1) =
          Real.logb 10 1e8 := by
      push_cast
      field_simp
      ring
    rw [heq, Real.rpow_logb (by norm_num) (by norm_num) (by norm_num)]
    norm_num
  · rfl
  · rfl
  · rfl
  · simp only [rrVals, List.chain'_cons, List.chain'_singleton, and_true]
    norm_num
